import Mathlib

/-!
Verification of the Amber Energy polling client.

This file gives a shallow embedding of the interval-selection logic of
`custom_components/amber_energy/sensor.py` and of the HTTP client of
`api.py`, and proves the specified selection, rounding, availability and
error-handling properties against it.

Modelling conventions:
* Timestamps are absolute instants modelled as integers.  The library call
  `dt_util.parse_datetime` followed by `dt_util.as_local` is a fixed function
  from timestamp strings to instants (timezone conversion preserves the
  instant, and aware-datetime comparison compares instants), so it is
  modelled as an arbitrary parameter `parse : String → Option ℤ`, with
  `none` for a parse failure (including an exception, which the source
  catches and turns into a skip).
* JSON interval dicts are modelled by the structure `Interval`; a `none`
  field models a missing key, mirroring `dict.get` with its defaults.
* Python truthiness is modelled where the source relies on it: `if not nem`
  skips both a missing `nemTime` and an empty string, `if not intervals`
  treats `None` and `[]` alike, and `if interval:` on a dict tests
  non-emptiness (`Interval.truthy`).
* `list.sort(key=lambda x: x[0])` is a stable sort by the datetime key.
  A stable sort's output is uniquely determined by the key order and the
  input order, so it is modelled by `List.insertionSort`, which is stable.
* Python's builtin `round(x, 2)` rounds to the nearest multiple of 1/100
  with ties going to the even multiple (banker's rounding), applied to the
  exact value of the stored IEEE-754 double; it is modelled on ℚ by
  `py_round2`.
-/

namespace AmberEnergy

/-- One interval record of the API response (`intervals` items in
`sensor.py`).  Each field models the JSON key of the same name; `none`
models a missing key. -/
structure Interval where
  nemTime : Option String
  perKwh : Option ℚ
  renewables : Option ℚ
  descriptor : Option String
deriving DecidableEq

/-- Python truthiness of an interval dict: a dict is truthy iff it is
non-empty.  Selected intervals always carry a `nemTime`, so this is `true`
on every interval the selection can return. -/
def Interval.truthy (it : Interval) : Bool :=
  it.nemTime.isSome || it.perKwh.isSome || it.renewables.isSome || it.descriptor.isSome

/-- A price group object (`priceData[0]` / `feedInPriceData[0]`); the code
reads `group.get("intervals", [])`, so a missing key defaults to `[]`. -/
structure PriceGroup where
  intervals : Option (List Interval)
deriving DecidableEq

/-- The full API response for one fetch (`coordinator.data`): the JSON body
with its `priceData` and `feedInPriceData` sequences. -/
structure Snapshot where
  priceData : List PriceGroup
  feedInPriceData : List PriceGroup
deriving DecidableEq

/-- The tariff direction, `price_type` in `sensor.py` (`"general"` or
`"feedin"`). -/
inductive Direction where
  | general
  | feedin
deriving DecidableEq

/-- The timestamp parser `dt_util.parse_datetime` composed with
`dt_util.as_local`, abstracted as a function to instants. -/
abbrev ParseFn := String → Option ℤ

/-- `AmberBaseSensor._get_intervals` (sensor.py:72-85): `None` when the
coordinator has no data or the direction's price-data sequence is empty,
otherwise the first group's `intervals` (defaulting to `[]`). -/
def get_intervals (data : Option Snapshot) (d : Direction) : Option (List Interval) :=
  match data with
  | none => none
  | some snap =>
    let price_data :=
      match d with
      | Direction.general => snap.priceData
      | Direction.feedin => snap.feedInPriceData
    match price_data with
    | [] => none
    | g :: _ => some (g.intervals.getD [])

/-- The per-interval body of the loop in `_intervals_with_dt`
(sensor.py:94-107): skip a missing or empty (falsy) `nemTime`, skip a
timestamp that fails to parse, otherwise pair the interval with its
instant. -/
def kept_pair (parse : ParseFn) (it : Interval) : Option (ℤ × Interval) :=
  match it.nemTime with
  | none => none
  | some nem =>
    if nem = "" then none
    else
      match parse nem with
      | none => none
      | some dt => some (dt, it)

/-- The sort order used by `items.sort(key=lambda x: x[0])`: comparison of
the datetime component. -/
def pairle (a b : ℤ × Interval) : Prop := a.1 ≤ b.1

instance : DecidableRel pairle := fun a b => inferInstanceAs (Decidable (a.1 ≤ b.1))

instance : IsTotal (ℤ × Interval) pairle := ⟨fun a b => Int.le_total a.1 b.1⟩

instance : IsTrans (ℤ × Interval) pairle := ⟨fun _ _ _ hab hbc => le_trans hab hbc⟩

/-- `AmberBaseSensor._intervals_with_dt` (sensor.py:87-110): the list of
`(datetime, interval)` pairs for the parseable intervals, sorted stably by
datetime ascending. -/
def intervals_with_dt (parse : ParseFn) (ivs : Option (List Interval)) : List (ℤ × Interval) :=
  match ivs with
  | none => []
  | some intervals =>
    if intervals.isEmpty then []
    else List.insertionSort pairle (intervals.filterMap (kept_pair parse))

/-- The `past_items` comprehension of `_get_current_interval`
(sensor.py:124): pairs with instant ≤ now. -/
def past_items (parse : ParseFn) (now : ℤ) (ivs : Option (List Interval)) :
    List (ℤ × Interval) :=
  (intervals_with_dt parse ivs).filter (fun p => p.1 ≤ now)

/-- The `future_items` comprehension of `_get_current_interval` and
`_get_next_interval` (sensor.py:125,148): pairs with instant > now. -/
def future_items (parse : ParseFn) (now : ℤ) (ivs : Option (List Interval)) :
    List (ℤ × Interval) :=
  (intervals_with_dt parse ivs).filter (fun p => now < p.1)

/-- `AmberBaseSensor._get_current_interval` (sensor.py:112-135): the most
recent past-or-now interval, else the earliest future interval, else the
last interval of the sorted sequence. -/
def get_current_interval (parse : ParseFn) (now : ℤ) (ivs : Option (List Interval)) :
    Option Interval :=
  if (intervals_with_dt parse ivs).isEmpty then none
  else
    match (past_items parse now ivs).getLast? with
    | some p => some p.2
    | none =>
      match (future_items parse now ivs).head? with
      | some f => some f.2
      | none => (intervals_with_dt parse ivs).getLast?.map Prod.snd

/-- `AmberBaseSensor._get_next_interval` (sensor.py:137-153): the earliest
interval with instant > now, else `None`. -/
def get_next_interval (parse : ParseFn) (now : ℤ) (ivs : Option (List Interval)) :
    Option Interval :=
  if (intervals_with_dt parse ivs).isEmpty then none
  else
    match (future_items parse now ivs).head? with
    | some f => some f.2
    | none => none

/-- `AmberBaseSensor.available` (sensor.py:67-70): the coordinator's last
update succeeded and `bool(self._get_intervals())` holds, i.e. the raw
interval list exists and is non-empty. -/
def available (last_update_success : Bool) (data : Option Snapshot) (d : Direction) : Bool :=
  last_update_success &&
    (match get_intervals data d with
     | none => false
     | some l => !l.isEmpty)

/-- Round a rational to the nearest integer with ties to the even integer:
the rounding of Python's builtin `round` (banker's rounding). -/
def round_half_even (q : ℚ) : ℤ :=
  let f : ℤ := ⌊q⌋
  let frac : ℚ := q - f
  if frac < 1 / 2 then f
  else if 1 / 2 < frac then f + 1
  else if f % 2 = 0 then f else f + 1

/-- Python's `round(x, 2)` on the exact value of the stored number:
round-half-even at two decimal places. -/
def py_round2 (q : ℚ) : ℚ := (round_half_even (q * 100) : ℚ) / 100

/-- `AmberCurrentPriceSensor.native_value` (sensor.py:175-181):
`round(interval.get("perKwh", 0), 2)` of the current interval, `None` when
no (truthy) interval is selected. -/
def AmberCurrentPriceSensor.native_value (parse : ParseFn) (now : ℤ)
    (data : Option Snapshot) (d : Direction) : Option ℚ :=
  match get_current_interval parse now (get_intervals data d) with
  | some interval =>
    if interval.truthy then some (py_round2 (interval.perKwh.getD 0)) else none
  | none => none

/-- `AmberNextPriceSensor.native_value` (sensor.py:216-222):
`round(interval.get("perKwh", 0), 2)` of the next interval, `None` when no
(truthy) interval is selected. -/
def AmberNextPriceSensor.native_value (parse : ParseFn) (now : ℤ)
    (data : Option Snapshot) (d : Direction) : Option ℚ :=
  match get_next_interval parse now (get_intervals data d) with
  | some interval =>
    if interval.truthy then some (py_round2 (interval.perKwh.getD 0)) else none
  | none => none

/-- `AmberRenewablesSensor.native_value` (sensor.py:256-262):
`round(interval.get("renewables", 0), 2)` of the current interval. -/
def AmberRenewablesSensor.native_value (parse : ParseFn) (now : ℤ)
    (data : Option Snapshot) (d : Direction) : Option ℚ :=
  match get_current_interval parse now (get_intervals data d) with
  | some interval =>
    if interval.truthy then some (py_round2 (interval.renewables.getD 0)) else none
  | none => none

/-- `AmberDescriptorSensor.native_value` (sensor.py:292-298):
`interval.get("descriptor")` of the current interval. -/
def AmberDescriptorSensor.native_value (parse : ParseFn) (now : ℤ)
    (data : Option Snapshot) (d : Direction) : Option String :=
  match get_current_interval parse now (get_intervals data d) with
  | some interval => if interval.truthy then interval.descriptor else none
  | none => none

/-- State-passing rendering of one selection pass against the coordinator
snapshot.  The only in-place operation on the selection path is
`items.sort()` in `_intervals_with_dt`, and `items` is the freshly built
local list of that method (sensor.py:90,109), not the snapshot's list; the
interval dicts themselves are only read via `.get`.  The snapshot component
is therefore threaded through unchanged. -/
def select_with_state (parse : ParseFn) (now : ℤ) (data : Option Snapshot) (d : Direction) :
    (Option Interval × Option Interval) × Option Snapshot :=
  ((get_current_interval parse now (get_intervals data d),
    get_next_interval parse now (get_intervals data d)), data)

/-- The outcome of the single `requests.get` call in
`AmberEnergyAPI.get_prices` (api.py:27): either a transport-level failure
(connection error or the 10-second timeout, both raised as
`RequestException`) or an HTTP response with a status code and a body. -/
inductive TransportEvent where
  | network_failure
  | response (status : ℕ) (body : String)

/-- The `requests.exceptions.RequestException` values `get_prices` re-raises:
the transport failure itself, the `HTTPError` of `raise_for_status`, or the
`JSONDecodeError` of `response.json()` (a `RequestException` subclass). -/
inductive RequestError where
  | connection
  | http_status (status : ℕ)
  | json_decode (body : String)
deriving DecidableEq

/-- `AmberEnergyAPI.get_prices` (api.py:20-32): one `requests.get`, then
`raise_for_status` — which raises exactly for status codes in [400, 600) —
then `response.json()`; every `RequestException` is logged and re-raised.
JSON decoding of the body is abstracted as `parse_json`. -/
def get_prices (parse_json : String → Option Snapshot) (ev : TransportEvent) :
    Except RequestError Snapshot :=
  match ev with
  | TransportEvent.network_failure => Except.error RequestError.connection
  | TransportEvent.response status body =>
    if 400 ≤ status ∧ status < 600 then Except.error (RequestError.http_status status)
    else
      match parse_json body with
      | some snap => Except.ok snap
      | none => Except.error (RequestError.json_decode body)

/-- Rounding as the spec's words describe it, for comparison with the
code's rounding: "half-up at 2 decimals", i.e. round to the nearest
multiple of 1/100 with ties rounded up. -/
def spec_round_half_up2 (q : ℚ) : ℚ := (⌊q * 100 + 1 / 2⌋ : ℚ) / 100

/-- Concrete timestamp parser for witnesses: two parseable timestamps
`"a"` (instant 5) and `"b"` (instant 10); everything else fails. -/
def parse0 : ParseFn := fun s =>
  if s = "a" then some 5 else if s = "b" then some 10 else none

/-- Fixture interval at instant 5 under `parse0`. -/
def iv_a : Interval := ⟨some "a", some 1, some 50, some "low"⟩

/-- Fixture interval at instant 10 under `parse0`. -/
def iv_b : Interval := ⟨some "b", some 2, some 60, some "high"⟩

/-- Fixture interval whose timestamp fails to parse under `parse0`. -/
def iv_bad : Interval := ⟨some "zzz", some 3, some 70, some "mid"⟩

/-- Fixture interval carrying only a timestamp: `perKwh` and `renewables`
keys are missing. -/
def iv_noprice : Interval := ⟨some "a", none, none, none⟩

/-- Fixture interval whose price is exactly 1/8 = 0.125, a value an IEEE-754
double represents exactly, so Python's rounding of it is unambiguous. -/
def iv_eighth : Interval := ⟨some "a", some (1 / 8), some (1 / 8), none⟩

/-- Snapshot with the two parseable fixture intervals in both directions. -/
def snap_ab : Snapshot :=
  ⟨[⟨some [iv_a, iv_b]⟩], [⟨some [iv_a, iv_b]⟩]⟩

/-- Snapshot whose general direction has a group with an empty interval
list. -/
def snap_empty : Snapshot := ⟨[⟨some []⟩], []⟩

/-- Snapshot whose only general interval lacks the `perKwh` and
`renewables` keys. -/
def snap_noprice : Snapshot := ⟨[⟨some [iv_noprice]⟩], []⟩

/-- Snapshot whose only general interval has price 1/8, in both
directions. -/
def snap_eighth : Snapshot := ⟨[⟨some [iv_eighth]⟩], [⟨some [iv_eighth]⟩]⟩

/-- Snapshot whose general direction is non-empty but consists of a single
interval with an unparseable timestamp. -/
def snap_badtime : Snapshot := ⟨[⟨some [iv_bad]⟩], []⟩

/-- Fixture snapshot returned by the fixture JSON parser. -/
def snap_ok : Snapshot := ⟨[], []⟩

/-- Concrete JSON body parser for witnesses: the body `"ok"` decodes to
`snap_ok`, every other body is malformed. -/
def pj0 : String → Option Snapshot := fun b => if b = "ok" then some snap_ok else none

/-! ## Branch equations of the selection pipeline -/

theorem intervals_with_dt_none (parse : ParseFn) : intervals_with_dt parse none = [] := rfl

theorem intervals_with_dt_some (parse : ParseFn) (l : List Interval) :
    intervals_with_dt parse (some l) =
      if l.isEmpty then [] else List.insertionSort pairle (l.filterMap (kept_pair parse)) := rfl

theorem kept_pair_of_none {parse : ParseFn} {a : Interval} (h : a.nemTime = none) :
    kept_pair parse a = none := by
  unfold kept_pair; rw [h]

theorem kept_pair_of_some {parse : ParseFn} {a : Interval} {s : String}
    (h : a.nemTime = some s) :
    kept_pair parse a =
      if s = "" then none
      else
        match parse s with
        | none => none
        | some dt => some (dt, a) := by
  unfold kept_pair; rw [h]

theorem get_current_interval_of_empty {parse : ParseFn} {now : ℤ}
    {ivs : Option (List Interval)} (hE : (intervals_with_dt parse ivs).isEmpty = true) :
    get_current_interval parse now ivs = none := by
  unfold get_current_interval; rw [if_pos hE]

theorem get_current_interval_of_past {parse : ParseFn} {now : ℤ}
    {ivs : Option (List Interval)} {p : ℤ × Interval}
    (hE : (intervals_with_dt parse ivs).isEmpty = false)
    (hp : (past_items parse now ivs).getLast? = some p) :
    get_current_interval parse now ivs = some p.2 := by
  unfold get_current_interval
  rw [hE]
  simp only [Bool.false_eq_true, if_false]
  rw [hp]

theorem get_current_interval_of_future {parse : ParseFn} {now : ℤ}
    {ivs : Option (List Interval)} {f : ℤ × Interval}
    (hE : (intervals_with_dt parse ivs).isEmpty = false)
    (hp : (past_items parse now ivs).getLast? = none)
    (hf : (future_items parse now ivs).head? = some f) :
    get_current_interval parse now ivs = some f.2 := by
  unfold get_current_interval
  rw [hE]
  simp only [Bool.false_eq_true, if_false]
  rw [hp, hf]

theorem get_current_interval_fallback {parse : ParseFn} {now : ℤ}
    {ivs : Option (List Interval)}
    (hE : (intervals_with_dt parse ivs).isEmpty = false)
    (hp : (past_items parse now ivs).getLast? = none)
    (hf : (future_items parse now ivs).head? = none) :
    get_current_interval parse now ivs =
      (intervals_with_dt parse ivs).getLast?.map Prod.snd := by
  unfold get_current_interval
  rw [hE]
  simp only [Bool.false_eq_true, if_false]
  rw [hp, hf]

theorem get_next_interval_of_empty {parse : ParseFn} {now : ℤ}
    {ivs : Option (List Interval)} (hE : (intervals_with_dt parse ivs).isEmpty = true) :
    get_next_interval parse now ivs = none := by
  unfold get_next_interval; rw [if_pos hE]

theorem get_next_interval_of_future {parse : ParseFn} {now : ℤ}
    {ivs : Option (List Interval)} {f : ℤ × Interval}
    (hE : (intervals_with_dt parse ivs).isEmpty = false)
    (hf : (future_items parse now ivs).head? = some f) :
    get_next_interval parse now ivs = some f.2 := by
  unfold get_next_interval
  rw [hE]
  simp only [Bool.false_eq_true, if_false]
  rw [hf]

theorem get_next_interval_of_no_future {parse : ParseFn} {now : ℤ}
    {ivs : Option (List Interval)}
    (hf : (future_items parse now ivs).head? = none) :
    get_next_interval parse now ivs = none := by
  unfold get_next_interval
  by_cases hE : (intervals_with_dt parse ivs).isEmpty = true
  · rw [if_pos hE]
  · rw [if_neg hE, hf]

/-! ## Structural lemmas about the selection pipeline -/

theorem sorted_intervals_with_dt (parse : ParseFn) (ivs : Option (List Interval)) :
    (intervals_with_dt parse ivs).Pairwise pairle := by
  cases ivs with
  | none => rw [intervals_with_dt_none]; exact List.Pairwise.nil
  | some l =>
    rw [intervals_with_dt_some]
    by_cases hE : l.isEmpty = true
    · rw [if_pos hE]; exact List.Pairwise.nil
    · rw [if_neg hE]; exact List.sorted_insertionSort pairle _

theorem mem_getLast?_of_eq_some {α : Type _} {l : List α} {y : α}
    (h : l.getLast? = some y) : y ∈ l := by
  obtain ⟨ys, rfl⟩ := List.getLast?_eq_some_iff.mp h
  exact List.mem_append.mpr (Or.inr (List.mem_singleton_self y))

theorem mem_head?_of_eq_some {α : Type _} {l : List α} {y : α}
    (h : l.head? = some y) : y ∈ l := by
  obtain ⟨ys, rfl⟩ := List.head?_eq_some_iff.mp h
  exact List.mem_cons_self y ys

theorem le_getLast_of_sorted {l : List (ℤ × Interval)} {x y : ℤ × Interval}
    (hs : l.Pairwise pairle) (hy : l.getLast? = some y) (hx : x ∈ l) : x.1 ≤ y.1 := by
  obtain ⟨ys, rfl⟩ := List.getLast?_eq_some_iff.mp hy
  rcases List.mem_append.mp hx with hx1 | hx2
  · exact (List.pairwise_append.mp hs).2.2 x hx1 y (List.mem_singleton_self y)
  · cases List.mem_singleton.mp hx2
    exact le_refl _

theorem head_le_of_sorted {l : List (ℤ × Interval)} {x y : ℤ × Interval}
    (hs : l.Pairwise pairle) (hy : l.head? = some y) (hx : x ∈ l) : y.1 ≤ x.1 := by
  obtain ⟨ys, rfl⟩ := List.head?_eq_some_iff.mp hy
  rcases List.mem_cons.mp hx with rfl | hx2
  · exact le_refl _
  · exact (List.pairwise_cons.mp hs).1 x hx2

theorem mem_intervals_with_dt {parse : ParseFn} {ivs : Option (List Interval)}
    {p : ℤ × Interval} (hp : p ∈ intervals_with_dt parse ivs) :
    ∃ l, ivs = some l ∧ ∃ a ∈ l, kept_pair parse a = some p := by
  cases ivs with
  | none => rw [intervals_with_dt_none] at hp; simp at hp
  | some l =>
    rw [intervals_with_dt_some] at hp
    refine ⟨l, rfl, ?_⟩
    by_cases hE : l.isEmpty = true
    · rw [if_pos hE] at hp; simp at hp
    · rw [if_neg hE] at hp
      exact List.mem_filterMap.mp ((List.mem_insertionSort pairle).mp hp)

theorem kept_pair_nemTime {parse : ParseFn} {a it : Interval} {t : ℤ}
    (h : kept_pair parse a = some (t, it)) :
    it = a ∧ ∃ s, a.nemTime = some s ∧ s ≠ "" ∧ parse s = some t := by
  cases hn : a.nemTime with
  | none => rw [kept_pair_of_none hn] at h; exact absurd h (by simp)
  | some s =>
    rw [kept_pair_of_some hn] at h
    by_cases hs : s = ""
    · rw [if_pos hs] at h; exact absurd h (by simp)
    · rw [if_neg hs] at h
      cases hps : parse s with
      | none => rw [hps] at h; simp at h
      | some t2 =>
        rw [hps] at h
        have h2 : t2 = t ∧ a = it := by simpa using h
        obtain ⟨rfl, rfl⟩ := h2
        exact ⟨rfl, s, rfl, hs, hps⟩

theorem truthy_of_mem {parse : ParseFn} {ivs : Option (List Interval)}
    {p : ℤ × Interval} (hp : p ∈ intervals_with_dt parse ivs) : p.2.truthy = true := by
  obtain ⟨t, it⟩ := p
  obtain ⟨l, _, a, _, ha⟩ := mem_intervals_with_dt hp
  obtain ⟨rfl, s, hn, _, _⟩ := kept_pair_nemTime ha
  simp [Interval.truthy, hn]

theorem past_items_subset {parse : ParseFn} {now : ℤ} {ivs : Option (List Interval)}
    {p : ℤ × Interval} (h : p ∈ past_items parse now ivs) :
    p ∈ intervals_with_dt parse ivs := List.mem_of_mem_filter h

theorem past_items_le {parse : ParseFn} {now : ℤ} {ivs : Option (List Interval)}
    {p : ℤ × Interval} (h : p ∈ past_items parse now ivs) : p.1 ≤ now := by
  simpa using (List.mem_filter.mp h).2

theorem mem_past_items {parse : ParseFn} {now : ℤ} {ivs : Option (List Interval)}
    {p : ℤ × Interval} (hp : p ∈ intervals_with_dt parse ivs) (hle : p.1 ≤ now) :
    p ∈ past_items parse now ivs := List.mem_filter.mpr ⟨hp, decide_eq_true hle⟩

theorem sorted_past_items (parse : ParseFn) (now : ℤ) (ivs : Option (List Interval)) :
    (past_items parse now ivs).Pairwise pairle :=
  List.Pairwise.filter _ (sorted_intervals_with_dt parse ivs)

theorem future_items_subset {parse : ParseFn} {now : ℤ} {ivs : Option (List Interval)}
    {p : ℤ × Interval} (h : p ∈ future_items parse now ivs) :
    p ∈ intervals_with_dt parse ivs := List.mem_of_mem_filter h

theorem future_items_lt {parse : ParseFn} {now : ℤ} {ivs : Option (List Interval)}
    {p : ℤ × Interval} (h : p ∈ future_items parse now ivs) : now < p.1 := by
  simpa using (List.mem_filter.mp h).2

theorem mem_future_items {parse : ParseFn} {now : ℤ} {ivs : Option (List Interval)}
    {p : ℤ × Interval} (hp : p ∈ intervals_with_dt parse ivs) (hlt : now < p.1) :
    p ∈ future_items parse now ivs := List.mem_filter.mpr ⟨hp, decide_eq_true hlt⟩

theorem sorted_future_items (parse : ParseFn) (now : ℤ) (ivs : Option (List Interval)) :
    (future_items parse now ivs).Pairwise pairle :=
  List.Pairwise.filter _ (sorted_intervals_with_dt parse ivs)

theorem bool_isEmpty_false_of_ne {l : List (ℤ × Interval)} (h : l ≠ []) :
    l.isEmpty = false := by
  simpa [List.isEmpty_iff] using h

theorem current_interval_mem {parse : ParseFn} {now : ℤ} {ivs : Option (List Interval)}
    {it : Interval} (h : get_current_interval parse now ivs = some it) :
    ∃ t, (t, it) ∈ intervals_with_dt parse ivs := by
  by_cases hE : (intervals_with_dt parse ivs).isEmpty = true
  · rw [get_current_interval_of_empty hE] at h; exact absurd h (by simp)
  · have hE2 : (intervals_with_dt parse ivs).isEmpty = false := by
      simpa using hE
    cases hp : (past_items parse now ivs).getLast? with
    | some p =>
      rw [get_current_interval_of_past hE2 hp] at h
      obtain rfl : p.2 = it := Option.some.inj h
      refine ⟨p.1, ?_⟩
      rw [Prod.mk.eta]
      exact past_items_subset (mem_getLast?_of_eq_some hp)
    | none =>
      cases hf : (future_items parse now ivs).head? with
      | some f =>
        rw [get_current_interval_of_future hE2 hp hf] at h
        obtain rfl : f.2 = it := Option.some.inj h
        refine ⟨f.1, ?_⟩
        rw [Prod.mk.eta]
        exact future_items_subset (mem_head?_of_eq_some hf)
      | none =>
        rw [get_current_interval_fallback hE2 hp hf] at h
        obtain ⟨y, hy, rfl⟩ := Option.map_eq_some'.mp h
        refine ⟨y.1, ?_⟩
        rw [Prod.mk.eta]
        exact mem_getLast?_of_eq_some hy

theorem next_interval_mem {parse : ParseFn} {now : ℤ} {ivs : Option (List Interval)}
    {it : Interval} (h : get_next_interval parse now ivs = some it) :
    ∃ t, (t, it) ∈ intervals_with_dt parse ivs := by
  by_cases hE : (intervals_with_dt parse ivs).isEmpty = true
  · rw [get_next_interval_of_empty hE] at h; exact absurd h (by simp)
  · have hE2 : (intervals_with_dt parse ivs).isEmpty = false := by
      simpa using hE
    cases hf : (future_items parse now ivs).head? with
    | some f =>
      rw [get_next_interval_of_future hE2 hf] at h
      obtain rfl : f.2 = it := Option.some.inj h
      refine ⟨f.1, ?_⟩
      rw [Prod.mk.eta]
      exact future_items_subset (mem_head?_of_eq_some hf)
    | none => rw [get_next_interval_of_no_future hf] at h; exact absurd h (by simp)

theorem get_current_interval_congr {parse : ParseFn} {now : ℤ}
    {ivs ivs' : Option (List Interval)}
    (h : intervals_with_dt parse ivs = intervals_with_dt parse ivs') :
    get_current_interval parse now ivs = get_current_interval parse now ivs' := by
  unfold get_current_interval past_items future_items
  rw [h]

theorem get_next_interval_congr {parse : ParseFn} {now : ℤ}
    {ivs ivs' : Option (List Interval)}
    (h : intervals_with_dt parse ivs = intervals_with_dt parse ivs') :
    get_next_interval parse now ivs = get_next_interval parse now ivs' := by
  unfold get_next_interval future_items
  rw [h]

theorem kept_pair_eq_none_of_malformed {parse : ParseFn} {bad : Interval}
    (h : bad.nemTime = none ∨ bad.nemTime = some "" ∨
      ∃ s, bad.nemTime = some s ∧ parse s = none) :
    kept_pair parse bad = none := by
  rcases h with h | h | ⟨s, hs, hps⟩
  · exact kept_pair_of_none h
  · rw [kept_pair_of_some h]; simp
  · rw [kept_pair_of_some hs]
    by_cases he : s = ""
    · rw [if_pos he]
    · rw [if_neg he, hps]

theorem intervals_with_dt_insert_dropped {parse : ParseFn} {bad : Interval}
    (h : kept_pair parse bad = none) (l₁ l₂ : List Interval) :
    intervals_with_dt parse (some (l₁ ++ bad :: l₂)) =
      intervals_with_dt parse (some (l₁ ++ l₂)) := by
  rw [intervals_with_dt_some, intervals_with_dt_some]
  by_cases h0 : l₁ ++ l₂ = []
  · obtain ⟨rfl, rfl⟩ := List.append_eq_nil.mp h0
    simp [h]
  · have e1 : (l₁ ++ l₂).isEmpty = false := by simpa [List.isEmpty_iff] using h0
    have e2 : (l₁ ++ bad :: l₂).isEmpty = false := by simp [List.isEmpty_iff]
    rw [e1, e2]
    simp only [Bool.false_eq_true, if_false]
    rw [List.filterMap_append, List.filterMap_append, List.filterMap_cons, h]

/-! ## Claims -/

/-- C1: for every snapshot direction whose interval sequence, after dropping
unparseable timestamps and sorting by instant ascending, is non-empty, the
current interval is the last element of the past-or-now partition if that is
non-empty, else the first element of the future partition if that is
non-empty, else the last element of the full sorted sequence; and whenever
some interval has instant ≤ now, the current interval is one with the
maximum instant ≤ now. -/
theorem current_interval_selection_policy (parse : ParseFn) (now : ℤ)
    (data : Option Snapshot) (d : Direction)
    (hne : intervals_with_dt parse (get_intervals data d) ≠ []) :
    (∀ p, (past_items parse now (get_intervals data d)).getLast? = some p →
      get_current_interval parse now (get_intervals data d) = some p.2) ∧
    (past_items parse now (get_intervals data d) = [] →
      ∀ f, (future_items parse now (get_intervals data d)).head? = some f →
        get_current_interval parse now (get_intervals data d) = some f.2) ∧
    (past_items parse now (get_intervals data d) = [] →
      future_items parse now (get_intervals data d) = [] →
      get_current_interval parse now (get_intervals data d) =
        (intervals_with_dt parse (get_intervals data d)).getLast?.map Prod.snd) ∧
    ((∃ p ∈ intervals_with_dt parse (get_intervals data d), p.1 ≤ now) →
      ∃ t it, get_current_interval parse now (get_intervals data d) = some it ∧
        (t, it) ∈ intervals_with_dt parse (get_intervals data d) ∧ t ≤ now ∧
        ∀ q ∈ intervals_with_dt parse (get_intervals data d), q.1 ≤ now → q.1 ≤ t) := by
  have hE : (intervals_with_dt parse (get_intervals data d)).isEmpty = false :=
    bool_isEmpty_false_of_ne hne
  refine ⟨?_, ?_, ?_, ?_⟩
  · intro p hp
    exact get_current_interval_of_past hE hp
  · intro hpast f hf
    have hp0 : (past_items parse now (get_intervals data d)).getLast? = none := by
      rw [hpast]; rfl
    exact get_current_interval_of_future hE hp0 hf
  · intro hpast hfut
    have hp0 : (past_items parse now (get_intervals data d)).getLast? = none := by
      rw [hpast]; rfl
    have hf0 : (future_items parse now (get_intervals data d)).head? = none := by
      rw [hfut]; rfl
    exact get_current_interval_fallback hE hp0 hf0
  · rintro ⟨p, hpmem, hple⟩
    have hpp : p ∈ past_items parse now (get_intervals data d) := mem_past_items hpmem hple
    cases hlast : (past_items parse now (get_intervals data d)).getLast? with
    | none =>
      rw [List.getLast?_eq_none_iff] at hlast
      rw [hlast] at hpp
      simp at hpp
    | some y =>
      have hymem : y ∈ past_items parse now (get_intervals data d) :=
        mem_getLast?_of_eq_some hlast
      refine ⟨y.1, y.2, get_current_interval_of_past hE hlast, ?_,
        past_items_le hymem, ?_⟩
      · rw [Prod.mk.eta]
        exact past_items_subset hymem
      · intro q hq hqle
        exact le_getLast_of_sorted (sorted_past_items parse now (get_intervals data d))
          hlast (mem_past_items hq hqle)

/-- Witness for C1 at a concrete snapshot: with intervals at instants 5 and
10 and now = 7, the current interval is the one at instant 5, the maximum
instant ≤ 7. -/
theorem current_interval_selection_policy_witness :
    ∃ t it, get_current_interval parse0 7 (get_intervals (some snap_ab) Direction.general) =
        some it ∧
      (t, it) ∈ intervals_with_dt parse0 (get_intervals (some snap_ab) Direction.general) ∧
      t ≤ 7 ∧
      ∀ q ∈ intervals_with_dt parse0 (get_intervals (some snap_ab) Direction.general),
        q.1 ≤ 7 → q.1 ≤ t := by
  have h : intervals_with_dt parse0 (get_intervals (some snap_ab) Direction.general) =
      [(5, iv_a), (10, iv_b)] := rfl
  refine (current_interval_selection_policy parse0 7 (some snap_ab) Direction.general
    ?_).2.2.2 ?_
  · rw [h]; exact List.cons_ne_nil _ _
  · exact ⟨(5, iv_a), by rw [h]; exact List.mem_cons_self _ _, by decide⟩

/-- C2: the next interval is an earliest interval with parsed instant
strictly greater than now — present and earliest whenever some future
interval exists — and is absent when every interval's instant is ≤ now
(in particular for all-past sequences). -/
theorem next_interval_earliest_future (parse : ParseFn) (now : ℤ)
    (data : Option Snapshot) (d : Direction) :
    (∀ it, get_next_interval parse now (get_intervals data d) = some it →
      ∃ t, (t, it) ∈ intervals_with_dt parse (get_intervals data d) ∧ now < t ∧
        ∀ q ∈ intervals_with_dt parse (get_intervals data d), now < q.1 → t ≤ q.1) ∧
    ((∃ p ∈ intervals_with_dt parse (get_intervals data d), now < p.1) →
      ∃ t it, get_next_interval parse now (get_intervals data d) = some it ∧
        (t, it) ∈ intervals_with_dt parse (get_intervals data d) ∧ now < t ∧
        ∀ q ∈ intervals_with_dt parse (get_intervals data d), now < q.1 → t ≤ q.1) ∧
    ((∀ q ∈ intervals_with_dt parse (get_intervals data d), q.1 ≤ now) →
      get_next_interval parse now (get_intervals data d) = none) := by
  refine ⟨?_, ?_, ?_⟩
  · intro it h
    by_cases hE : (intervals_with_dt parse (get_intervals data d)).isEmpty = true
    · rw [get_next_interval_of_empty hE] at h
      exact absurd h (by simp)
    · have hE2 : (intervals_with_dt parse (get_intervals data d)).isEmpty = false := by
        simpa using hE
      cases hf : (future_items parse now (get_intervals data d)).head? with
      | none =>
        rw [get_next_interval_of_no_future hf] at h
        exact absurd h (by simp)
      | some f =>
        rw [get_next_interval_of_future hE2 hf] at h
        obtain rfl : f.2 = it := Option.some.inj h
        have hfmem := mem_head?_of_eq_some hf
        refine ⟨f.1, ?_, future_items_lt hfmem, ?_⟩
        · rw [Prod.mk.eta]
          exact future_items_subset hfmem
        · intro q hq hqlt
          exact head_le_of_sorted (sorted_future_items parse now (get_intervals data d))
            hf (mem_future_items hq hqlt)
  · rintro ⟨p, hpmem, hplt⟩
    have hpf : p ∈ future_items parse now (get_intervals data d) :=
      mem_future_items hpmem hplt
    have hE2 : (intervals_with_dt parse (get_intervals data d)).isEmpty = false :=
      bool_isEmpty_false_of_ne (List.ne_nil_of_mem hpmem)
    cases hf : (future_items parse now (get_intervals data d)).head? with
    | none =>
      rw [List.head?_eq_none_iff] at hf
      rw [hf] at hpf
      simp at hpf
    | some f =>
      have hfmem := mem_head?_of_eq_some hf
      refine ⟨f.1, f.2, get_next_interval_of_future hE2 hf, ?_,
        future_items_lt hfmem, ?_⟩
      · rw [Prod.mk.eta]
        exact future_items_subset hfmem
      · intro q hq hqlt
        exact head_le_of_sorted (sorted_future_items parse now (get_intervals data d))
          hf (mem_future_items hq hqlt)
  · intro hall
    have hfe : future_items parse now (get_intervals data d) = [] := by
      unfold future_items
      rw [List.filter_eq_nil_iff]
      intro a ha
      simp only [decide_eq_true_eq]
      exact not_lt.mpr (hall a ha)
    exact get_next_interval_of_no_future (by rw [hfe]; rfl)

/-- Witness for C2 at a concrete snapshot with intervals at instants 5 and
10: with now = 20 (all in the past) the next interval is absent, and with
now = 7 a future interval exists, so the next interval is present and is an
earliest future one. -/
theorem next_interval_earliest_future_witness :
    get_next_interval parse0 20 (get_intervals (some snap_ab) Direction.general) = none ∧
    ∃ t it, get_next_interval parse0 7 (get_intervals (some snap_ab) Direction.general) =
        some it ∧
      (t, it) ∈ intervals_with_dt parse0 (get_intervals (some snap_ab) Direction.general) ∧
      7 < t ∧
      ∀ q ∈ intervals_with_dt parse0 (get_intervals (some snap_ab) Direction.general),
        7 < q.1 → t ≤ q.1 := by
  have h : intervals_with_dt parse0 (get_intervals (some snap_ab) Direction.general) =
      [(5, iv_a), (10, iv_b)] := rfl
  constructor
  · refine (next_interval_earliest_future parse0 20 (some snap_ab) Direction.general).2.2 ?_
    rw [h]
    intro q hq
    rcases List.mem_cons.mp hq with rfl | hq2
    · decide
    · rcases List.mem_cons.mp hq2 with rfl | hq3
      · decide
      · simp at hq3
  · refine (next_interval_earliest_future parse0 7 (some snap_ab) Direction.general).2.1 ?_
    exact ⟨(10, iv_b), by rw [h]; simp, by decide⟩

/-- C3 counterexample: for the all-future sequence at instants 5 and 10 with
now = 0, the code returns next = the EARLIEST future interval, equal to
current — not the second-earliest interval `iv_b` the claim requires — and
with exactly one future interval next is that interval, not absent. -/
theorem all_future_next_equals_current_cex :
    get_current_interval parse0 0 (get_intervals (some snap_ab) Direction.general) =
      some iv_a ∧
    get_next_interval parse0 0 (get_intervals (some snap_ab) Direction.general) =
      some iv_a ∧
    iv_a ≠ iv_b ∧
    get_next_interval parse0 0 (some [iv_a]) = some iv_a := by
  refine ⟨rfl, rfl, ?_, rfl⟩
  simp [iv_a, iv_b]

/-- C3 amended: for every direction whose parsed interval sequence is
non-empty and consists solely of future instants, current and next are the
same selected interval — an earliest future one; with exactly one future
interval, next equals that interval (it is not absent). -/
theorem all_future_selection_amended (parse : ParseFn) (now : ℤ)
    (data : Option Snapshot) (d : Direction)
    (hne : intervals_with_dt parse (get_intervals data d) ≠ [])
    (hfut : ∀ p ∈ intervals_with_dt parse (get_intervals data d), now < p.1) :
    get_current_interval parse now (get_intervals data d) =
      get_next_interval parse now (get_intervals data d) ∧
    ∃ t it, get_current_interval parse now (get_intervals data d) = some it ∧
      (t, it) ∈ intervals_with_dt parse (get_intervals data d) ∧ now < t ∧
      ∀ q ∈ intervals_with_dt parse (get_intervals data d), now < q.1 → t ≤ q.1 := by
  have hE : (intervals_with_dt parse (get_intervals data d)).isEmpty = false :=
    bool_isEmpty_false_of_ne hne
  have hpast : past_items parse now (get_intervals data d) = [] := by
    unfold past_items
    rw [List.filter_eq_nil_iff]
    intro a ha
    simp only [decide_eq_true_eq]
    exact not_le.mpr (hfut a ha)
  have hffull : future_items parse now (get_intervals data d) =
      intervals_with_dt parse (get_intervals data d) := by
    unfold future_items
    rw [List.filter_eq_self]
    intro a ha
    exact decide_eq_true (hfut a ha)
  cases hf : (future_items parse now (get_intervals data d)).head? with
  | none =>
    rw [List.head?_eq_none_iff, hffull] at hf
    exact absurd hf hne
  | some f =>
    have hp0 : (past_items parse now (get_intervals data d)).getLast? = none := by
      rw [hpast]; rfl
    have hcur := get_current_interval_of_future hE hp0 hf
    have hnext := get_next_interval_of_future hE hf
    have hfmem := mem_head?_of_eq_some hf
    refine ⟨hcur.trans hnext.symm, f.1, f.2, hcur, ?_, future_items_lt hfmem, ?_⟩
    · rw [Prod.mk.eta]
      exact future_items_subset hfmem
    · intro q hq hqlt
      exact head_le_of_sorted (sorted_future_items parse now (get_intervals data d))
        hf (mem_future_items hq hqlt)

/-- Witness for the amended C3 at a concrete all-future snapshot. -/
theorem all_future_selection_amended_witness :
    get_current_interval parse0 0 (get_intervals (some snap_ab) Direction.general) =
      get_next_interval parse0 0 (get_intervals (some snap_ab) Direction.general) := by
  have h : intervals_with_dt parse0 (get_intervals (some snap_ab) Direction.general) =
      [(5, iv_a), (10, iv_b)] := rfl
  refine (all_future_selection_amended parse0 0 (some snap_ab) Direction.general ?_ ?_).1
  · rw [h]; exact List.cons_ne_nil _ _
  · rw [h]
    intro p hp
    rcases List.mem_cons.mp hp with rfl | hp2
    · decide
    · rcases List.mem_cons.mp hp2 with rfl | hp3
      · decide
      · simp at hp3

/-- C4: when the group for a direction is absent, or present with an empty
interval sequence, both current and next are absent and the direction is
unavailable. -/
theorem empty_direction_unavailable (parse : ParseFn) (now : ℤ)
    (data : Option Snapshot) (d : Direction) (b : Bool)
    (h : get_intervals data d = none ∨ get_intervals data d = some []) :
    get_current_interval parse now (get_intervals data d) = none ∧
    get_next_interval parse now (get_intervals data d) = none ∧
    available b data d = false := by
  rcases h with h | h
  · exact ⟨by rw [h]; rfl, by rw [h]; rfl, by simp [available, h]⟩
  · exact ⟨by rw [h]; rfl, by rw [h]; rfl, by simp [available, h]⟩

/-- Witness for C4 at a concrete snapshot whose general group carries an
empty interval list. -/
theorem empty_direction_unavailable_witness :
    get_current_interval parse0 0 (get_intervals (some snap_empty) Direction.general) = none ∧
    get_next_interval parse0 0 (get_intervals (some snap_empty) Direction.general) = none ∧
    available true (some snap_empty) Direction.general = false :=
  empty_direction_unavailable parse0 0 (some snap_empty) Direction.general true (Or.inr rfl)

/-- C5: an interval whose timestamp is missing, empty, or fails to parse is
dropped, and inserting one such interval anywhere into a sequence leaves
both the current and the next selection unchanged. -/
theorem malformed_interval_dropped_invariance (parse : ParseFn) (now : ℤ) (bad : Interval)
    (hbad : bad.nemTime = none ∨ bad.nemTime = some "" ∨
      ∃ s, bad.nemTime = some s ∧ parse s = none) (l₁ l₂ : List Interval) :
    get_current_interval parse now (some (l₁ ++ bad :: l₂)) =
      get_current_interval parse now (some (l₁ ++ l₂)) ∧
    get_next_interval parse now (some (l₁ ++ bad :: l₂)) =
      get_next_interval parse now (some (l₁ ++ l₂)) := by
  have h := intervals_with_dt_insert_dropped (kept_pair_eq_none_of_malformed hbad) l₁ l₂
  exact ⟨get_current_interval_congr h, get_next_interval_congr h⟩

/-- Witness for C5: inserting the unparseable fixture interval between the
two valid ones changes neither selection. -/
theorem malformed_interval_dropped_invariance_witness :
    get_current_interval parse0 7 (some ([iv_a] ++ iv_bad :: [iv_b])) =
      get_current_interval parse0 7 (some ([iv_a] ++ [iv_b])) ∧
    get_next_interval parse0 7 (some ([iv_a] ++ iv_bad :: [iv_b])) =
      get_next_interval parse0 7 (some ([iv_a] ++ [iv_b])) :=
  malformed_interval_dropped_invariance parse0 7 iv_bad
    (Or.inr (Or.inr ⟨"zzz", rfl, rfl⟩)) [iv_a] [iv_b]

/-- C6 counterexample: the exposed price is not the half-up rounding of the
raw value.  At the price 1/8 = 0.125 — exactly representable as a double, so
Python's rounding of it is unambiguous — the code exposes 0.12 in both
directions, while half-up rounding yields 0.13. -/
theorem rounding_not_half_up_cex :
    AmberCurrentPriceSensor.native_value parse0 10 (some snap_eighth) Direction.general =
      some (12 / 100) ∧
    AmberCurrentPriceSensor.native_value parse0 10 (some snap_eighth) Direction.feedin =
      some (12 / 100) ∧
    spec_round_half_up2 (1 / 8) = 13 / 100 ∧
    (12 / 100 : ℚ) ≠ 13 / 100 := by
  have hg : get_current_interval parse0 10 (get_intervals (some snap_eighth)
      Direction.general) = some iv_eighth := rfl
  have hf : get_current_interval parse0 10 (get_intervals (some snap_eighth)
      Direction.feedin) = some iv_eighth := rfl
  have hr : py_round2 (1 / 8) = 12 / 100 := by
    norm_num [py_round2, round_half_even]
  refine ⟨?_, ?_, ?_, by norm_num⟩
  · rw [AmberCurrentPriceSensor.native_value, hg]
    simp only [Interval.truthy, iv_eighth]
    norm_num [py_round2, round_half_even]
  · rw [AmberCurrentPriceSensor.native_value, hf]
    simp only [Interval.truthy, iv_eighth]
    norm_num [py_round2, round_half_even]
  · norm_num [spec_round_half_up2]

/-- C6 amended: every exposed price and renewables reading — current price,
next price, and renewables — is the selected interval's raw value rounded at
two decimals by the same function for both directions: Python's round, i.e.
round-half-even on the exact stored double value; the double nearest the
literal 12.345 (6949617174986097/2^49) lies above the tie and still rounds
to 12.35, while the exact tie 0.125 rounds down to 0.12; the snapshot itself
is not modified by the computation. -/
theorem rounding_half_even_amended (parse : ParseFn) (now : ℤ)
    (data : Option Snapshot) (d : Direction) :
    (∀ it, get_current_interval parse now (get_intervals data d) = some it →
      AmberCurrentPriceSensor.native_value parse now data d =
        some (py_round2 (it.perKwh.getD 0)) ∧
      AmberRenewablesSensor.native_value parse now data d =
        some (py_round2 (it.renewables.getD 0))) ∧
    (∀ it, get_next_interval parse now (get_intervals data d) = some it →
      AmberNextPriceSensor.native_value parse now data d =
        some (py_round2 (it.perKwh.getD 0))) ∧
    py_round2 (6949617174986097 / 562949953421312) = 1235 / 100 ∧
    py_round2 (1 / 8) = 12 / 100 ∧
    (select_with_state parse now data d).2 = data := by
  refine ⟨?_, ?_, ?_, ?_, rfl⟩
  · intro it hcur
    have ht : it.truthy = true := by
      obtain ⟨t, hmem⟩ := current_interval_mem hcur
      exact truthy_of_mem hmem
    constructor
    · rw [AmberCurrentPriceSensor.native_value, hcur]
      simp [ht]
    · rw [AmberRenewablesSensor.native_value, hcur]
      simp [ht]
  · intro it hnext
    have ht : it.truthy = true := by
      obtain ⟨t, hmem⟩ := next_interval_mem hnext
      exact truthy_of_mem hmem
    rw [AmberNextPriceSensor.native_value, hnext]
    simp [ht]
  · norm_num [py_round2, round_half_even]
  · norm_num [py_round2, round_half_even]

/-- Witness for the amended C6 at a concrete snapshot where both a current
and a next interval are selected: both price readings and the renewables
reading are the rounded raw values. -/
theorem rounding_half_even_amended_witness :
    AmberCurrentPriceSensor.native_value parse0 7 (some snap_ab) Direction.general =
      some (py_round2 (iv_a.perKwh.getD 0)) ∧
    AmberRenewablesSensor.native_value parse0 7 (some snap_ab) Direction.general =
      some (py_round2 (iv_a.renewables.getD 0)) ∧
    AmberNextPriceSensor.native_value parse0 7 (some snap_ab) Direction.general =
      some (py_round2 (iv_b.perKwh.getD 0)) :=
  ⟨((rounding_half_even_amended parse0 7 (some snap_ab) Direction.general).1 iv_a rfl).1,
   ((rounding_half_even_amended parse0 7 (some snap_ab) Direction.general).1 iv_a rfl).2,
   (rounding_half_even_amended parse0 7 (some snap_ab) Direction.general).2.1 iv_b rfl⟩

/-- C7 counterexample: a 304 response — not a 2xx status — with a
well-formed body makes `get_prices` return the parsed snapshot instead of
failing, because `raise_for_status` only raises for statuses in
[400, 600). -/
theorem non2xx_304_succeeds_cex :
    get_prices pj0 (TransportEvent.response 304 "ok") = Except.ok snap_ok ∧
    ¬(200 ≤ 304 ∧ 304 < 300) :=
  ⟨rfl, by decide⟩

theorem get_prices_response (pj : String → Option Snapshot) (st : ℕ) (b : String) :
    get_prices pj (TransportEvent.response st b) =
      if 400 ≤ st ∧ st < 600 then Except.error (RequestError.http_status st)
      else
        match pj b with
        | some snap => Except.ok snap
        | none => Except.error (RequestError.json_decode b) := rfl

/-- C7 amended: `get_prices` either returns the parsed snapshot or fails
with the transport error itself, and it fails exactly when the transport
fails (connection error or timeout), the status code is in [400, 600), or
the body is malformed; it is a pure function of the single transport
outcome, so one invocation makes one attempt and no state is carried
between calls. -/
theorem get_prices_error_classification (pj : String → Option Snapshot)
    (ev : TransportEvent) :
    ((∃ s, get_prices pj ev = Except.ok s) ∨
      (∃ e, get_prices pj ev = Except.error e)) ∧
    ((∃ e, get_prices pj ev = Except.error e) ↔
      (ev = TransportEvent.network_failure ∨
        ∃ st b, ev = TransportEvent.response st b ∧
          ((400 ≤ st ∧ st < 600) ∨ pj b = none))) ∧
    (ev = TransportEvent.network_failure →
      get_prices pj ev = Except.error RequestError.connection) ∧
    (∀ st b, ev = TransportEvent.response st b → 400 ≤ st → st < 600 →
      get_prices pj ev = Except.error (RequestError.http_status st)) ∧
    (∀ st b s, ev = TransportEvent.response st b → ¬(400 ≤ st ∧ st < 600) →
      pj b = some s → get_prices pj ev = Except.ok s) := by
  cases ev with
  | network_failure =>
    refine ⟨Or.inr ⟨RequestError.connection, rfl⟩,
      ⟨fun _ => Or.inl rfl, fun _ => ⟨RequestError.connection, rfl⟩⟩,
      fun _ => rfl, ?_, ?_⟩
    · intro st b hev
      exact absurd hev (by simp)
    · intro st b s hev
      exact absurd hev (by simp)
  | response st b =>
    by_cases hst : 400 ≤ st ∧ st < 600
    · have he : get_prices pj (TransportEvent.response st b) =
          Except.error (RequestError.http_status st) := by
        rw [get_prices_response, if_pos hst]
      refine ⟨Or.inr ⟨_, he⟩, ⟨fun _ => Or.inr ⟨st, b, rfl, Or.inl hst⟩, fun _ => ⟨_, he⟩⟩,
        ?_, ?_, ?_⟩
      · intro hev
        exact absurd hev (by simp)
      · intro st2 b2 hev _ _
        obtain ⟨rfl, rfl⟩ : st2 = st ∧ b2 = b := by simpa [eq_comm] using hev
        exact he
      · intro st2 b2 s hev hst2 _
        obtain ⟨rfl, rfl⟩ : st2 = st ∧ b2 = b := by simpa [eq_comm] using hev
        exact absurd hst hst2
    · cases hb : pj b with
      | some s =>
        have he : get_prices pj (TransportEvent.response st b) = Except.ok s := by
          rw [get_prices_response, if_neg hst, hb]
        refine ⟨Or.inl ⟨s, he⟩, ⟨?_, ?_⟩, ?_, ?_, ?_⟩
        · rintro ⟨e, hee⟩
          rw [he] at hee
          exact absurd hee (by simp)
        · rintro (hev | ⟨st2, b2, hev, hcase⟩)
          · exact absurd hev (by simp)
          · obtain ⟨rfl, rfl⟩ : st = st2 ∧ b = b2 := by simpa using hev
            rcases hcase with hcase | hcase
            · exact absurd hcase hst
            · rw [hb] at hcase
              exact absurd hcase (by simp)
        · intro hev
          exact absurd hev (by simp)
        · intro st2 b2 hev h4 h6
          obtain ⟨rfl, rfl⟩ : st2 = st ∧ b2 = b := by simpa [eq_comm] using hev
          exact absurd ⟨h4, h6⟩ hst
        · intro st2 b2 s2 hev _ hb2
          obtain ⟨rfl, rfl⟩ : st2 = st ∧ b2 = b := by simpa [eq_comm] using hev
          rw [hb] at hb2
          rw [he, Option.some.inj hb2]
      | none =>
        have he : get_prices pj (TransportEvent.response st b) =
            Except.error (RequestError.json_decode b) := by
          rw [get_prices_response, if_neg hst, hb]
        refine ⟨Or.inr ⟨_, he⟩,
          ⟨fun _ => Or.inr ⟨st, b, rfl, Or.inr hb⟩, fun _ => ⟨_, he⟩⟩, ?_, ?_, ?_⟩
        · intro hev
          exact absurd hev (by simp)
        · intro st2 b2 hev h4 h6
          obtain ⟨rfl, rfl⟩ : st2 = st ∧ b2 = b := by simpa [eq_comm] using hev
          exact absurd ⟨h4, h6⟩ hst
        · intro st2 b2 s2 hev _ hb2
          obtain ⟨rfl, rfl⟩ : st2 = st ∧ b2 = b := by simpa [eq_comm] using hev
          rw [hb] at hb2
          exact absurd hb2 (by simp)

/-- Witness for the amended C7: a 500 response fails with the HTTP status
error. -/
theorem get_prices_error_classification_witness :
    get_prices pj0 (TransportEvent.response 500 "ok") =
      Except.error (RequestError.http_status 500) :=
  (get_prices_error_classification pj0 (TransportEvent.response 500 "ok")).2.2.2.1
    500 "ok" rfl (by decide) (by decide)

/-- C8: selection is pure with respect to the snapshot — one selection pass
returns the snapshot unchanged, and selecting again from the returned
snapshot reads the same data and yields the same results. -/
theorem selection_pure_frame (parse : ParseFn) (now : ℤ) (data : Option Snapshot)
    (d : Direction) :
    (select_with_state parse now data d).2 = data ∧
    select_with_state parse now ((select_with_state parse now data d).2) d =
      select_with_state parse now data d :=
  ⟨rfl, rfl⟩

/-- C9: when a current (or next) interval is selected but its `perKwh`
(resp. `renewables`) key is missing, the exposed reading is 0 — the rounded
default — not absent; the reading is absent exactly when no interval is
selected. -/
theorem missing_field_defaults_zero (parse : ParseFn) (now : ℤ)
    (data : Option Snapshot) (d : Direction) :
    (∀ it, get_current_interval parse now (get_intervals data d) = some it →
      it.perKwh = none →
      AmberCurrentPriceSensor.native_value parse now data d = some 0) ∧
    (AmberCurrentPriceSensor.native_value parse now data d = none ↔
      get_current_interval parse now (get_intervals data d) = none) ∧
    (∀ it, get_next_interval parse now (get_intervals data d) = some it →
      it.perKwh = none →
      AmberNextPriceSensor.native_value parse now data d = some 0) ∧
    (AmberNextPriceSensor.native_value parse now data d = none ↔
      get_next_interval parse now (get_intervals data d) = none) ∧
    (∀ it, get_current_interval parse now (get_intervals data d) = some it →
      it.renewables = none →
      AmberRenewablesSensor.native_value parse now data d = some 0) ∧
    (AmberRenewablesSensor.native_value parse now data d = none ↔
      get_current_interval parse now (get_intervals data d) = none) := by
  have hz : py_round2 0 = 0 := by norm_num [py_round2, round_half_even]
  have htc : ∀ it, get_current_interval parse now (get_intervals data d) = some it →
      it.truthy = true := by
    intro it h
    obtain ⟨t, hmem⟩ := current_interval_mem h
    exact truthy_of_mem hmem
  have htn : ∀ it, get_next_interval parse now (get_intervals data d) = some it →
      it.truthy = true := by
    intro it h
    obtain ⟨t, hmem⟩ := next_interval_mem h
    exact truthy_of_mem hmem
  refine ⟨?_, ?_, ?_, ?_, ?_, ?_⟩
  · intro it h hnone
    rw [AmberCurrentPriceSensor.native_value, h]
    simp [htc it h, hnone, hz]
  · constructor
    · intro hv
      cases hc : get_current_interval parse now (get_intervals data d) with
      | none => rfl
      | some it =>
        rw [AmberCurrentPriceSensor.native_value, hc] at hv
        simp [htc it hc] at hv
    · intro hc
      rw [AmberCurrentPriceSensor.native_value, hc]
  · intro it h hnone
    rw [AmberNextPriceSensor.native_value, h]
    simp [htn it h, hnone, hz]
  · constructor
    · intro hv
      cases hc : get_next_interval parse now (get_intervals data d) with
      | none => rfl
      | some it =>
        rw [AmberNextPriceSensor.native_value, hc] at hv
        simp [htn it hc] at hv
    · intro hc
      rw [AmberNextPriceSensor.native_value, hc]
  · intro it h hnone
    rw [AmberRenewablesSensor.native_value, h]
    simp [htc it h, hnone, hz]
  · constructor
    · intro hv
      cases hc : get_current_interval parse now (get_intervals data d) with
      | none => rfl
      | some it =>
        rw [AmberRenewablesSensor.native_value, hc] at hv
        simp [htc it hc] at hv
    · intro hc
      rw [AmberRenewablesSensor.native_value, hc]

/-- Witness for C9 at the concrete snapshot whose selected interval lacks
the `perKwh` key: the exposed price is 0, not absent. -/
theorem missing_field_defaults_zero_witness :
    AmberCurrentPriceSensor.native_value parse0 10 (some snap_noprice) Direction.general =
      some 0 :=
  (missing_field_defaults_zero parse0 10 (some snap_noprice) Direction.general).1
    iv_noprice rfl rfl

/-- C10: availability tests only the last-update flag and non-emptiness of
the raw interval list; the concrete snapshot whose single interval has an
unparseable timestamp is reported available while all four readings are
absent. -/
theorem availability_ignores_parse_failures :
    (∀ (b : Bool) (data : Option Snapshot) (d : Direction),
      available b data d = (b && !((get_intervals data d).getD []).isEmpty)) ∧
    available true (some snap_badtime) Direction.general = true ∧
    AmberCurrentPriceSensor.native_value parse0 0 (some snap_badtime) Direction.general =
      none ∧
    AmberNextPriceSensor.native_value parse0 0 (some snap_badtime) Direction.general =
      none ∧
    AmberRenewablesSensor.native_value parse0 0 (some snap_badtime) Direction.general =
      none ∧
    AmberDescriptorSensor.native_value parse0 0 (some snap_badtime) Direction.general =
      none := by
  refine ⟨?_, rfl, rfl, rfl, rfl, rfl⟩
  intro b data d
  cases h : get_intervals data d with
  | none => simp [available, h]
  | some l => simp [available, h]

end AmberEnergy
